import Mathlib

/-!
Shallow embedding of the PatternPy chart-pattern detectors
(src/PatternPy/tradingpatterns/tradingpatterns.py) and of the aggregation
pipeline in src/main.py (analyze_stock).

Modelling conventions:
* a DataFrame row (one OHLC bar) is a `Bar`; a series is a `List Bar` in
  time-ascending order, and an index position stands for the bar timestamp
  (timestamps are strictly increasing, so positions and timestamps are in
  order-preserving bijection);
* a float column entry that pandas would hold as NaN (rolling statistic
  before the window fills, `shift` past either end, `diff` at row 0, the
  unset `slope`/`intercept`/`support`/`resistance` cells) is `none`;
  every pandas comparison against NaN is False, which the `o*` Boolean
  comparison helpers reproduce by returning `false` when either side is
  `none`;
* prices are exact rationals (`ℚ`); the detectors use only field
  arithmetic and order comparisons, so ℚ mirrors IEEE floats faithfully on
  all inputs considered here;
* each detector's returned mapping entry `label -> list of timestamps`
  (`df.index[mask].tolist()`) is embedded as the list of index positions
  whose mask is true, in ascending order, via `idxList`.
-/

namespace TradingPatterns

/-- One OHLC(+volume) bar: one row of the DataFrame handed to the detectors. -/
structure Bar where
  openP : ℚ
  high : ℚ
  low : ℚ
  close : ℚ
  volume : ℚ
deriving DecidableEq

/-- The `High` column. -/
def highs (S : List Bar) : List ℚ := S.map (·.high)

/-- The `Low` column. -/
def lows (S : List Bar) : List ℚ := S.map (·.low)

/-- The `Close` column. -/
def closes (S : List Bar) : List ℚ := S.map (·.close)

/-- Column value at row `i` (`none` past the end). -/
def cur (xs : List ℚ) (i : ℕ) : Option ℚ := xs[i]?

/-- Value of `col.shift(1)` at row `i`: the previous row's entry, NaN at row 0. -/
def prev (xs : List ℚ) (i : ℕ) : Option ℚ := if 1 ≤ i then xs[i - 1]? else none

/-- Value of `col.shift(-1)` at row `i`: the following row's entry, NaN at the last row. -/
def nxt (xs : List ℚ) (i : ℕ) : Option ℚ := xs[i + 1]?

/-- Strict `<` on two possibly-NaN values; False when either is NaN (pandas semantics). -/
def oLT : Option ℚ → Option ℚ → Bool
  | some a, some b => decide (a < b)
  | _, _ => false

/-- Non-strict `<=` on two possibly-NaN values; False when either is NaN. -/
def oLE : Option ℚ → Option ℚ → Bool
  | some a, some b => decide (a ≤ b)
  | _, _ => false

/-- Strict `>` on two possibly-NaN values; False when either is NaN. -/
def oGT : Option ℚ → Option ℚ → Bool
  | some a, some b => decide (b < a)
  | _, _ => false

/-- Non-strict `>=` on two possibly-NaN values; False when either is NaN. -/
def oGE : Option ℚ → Option ℚ → Bool
  | some a, some b => decide (b ≤ a)
  | _, _ => false

/-- Equality test on two possibly-NaN values; False when either is NaN. -/
def oEQ : Option ℚ → Option ℚ → Bool
  | some a, some b => decide (a = b)
  | _, _ => false

/-- Maximum of a list of rationals (`none` on the empty list). -/
def listMax : List ℚ → Option ℚ
  | [] => none
  | x :: xs => some (xs.foldl max x)

/-- Minimum of a list of rationals (`none` on the empty list). -/
def listMin : List ℚ → Option ℚ
  | [] => none
  | x :: xs => some (xs.foldl min x)

/-- The right-aligned window of the last `W` entries ending at row `i`
(well-sized whenever `W ≤ i+1` and `i < xs.length`). -/
def winList (xs : List ℚ) (W i : ℕ) : List ℚ := (xs.take (i + 1)).drop (i + 1 - W)

/-- `col.rolling(window=W).max()` at row `i`: NaN until the window holds `W`
values (pandas default `min_periods = W`), else the window maximum. -/
def rollMax (xs : List ℚ) (W i : ℕ) : Option ℚ :=
  if 1 ≤ W ∧ W ≤ i + 1 ∧ i < xs.length then listMax (winList xs W i) else none

/-- `col.rolling(window=W).min()` at row `i`. -/
def rollMin (xs : List ℚ) (W i : ℕ) : Option ℚ :=
  if 1 ≤ W ∧ W ≤ i + 1 ∧ i < xs.length then listMin (winList xs W i) else none

/-- `col.rolling(window=W).mean()` at row `i`. -/
def rollMean (xs : List ℚ) (W i : ℕ) : Option ℚ :=
  if 1 ≤ W ∧ W ≤ i + 1 ∧ i < xs.length then some ((winList xs W i).sum / (W : ℚ)) else none

/-- `col.diff()` at row `i`: `col[i] - col[i-1]`, NaN at row 0 and past the end. -/
def diffAt (xs : List ℚ) (i : ℕ) : Option ℚ :=
  match cur xs i, prev xs i with
  | some a, some b => some (a - b)
  | _, _ => none

/-- The rolling trend sign used by `detect_wedge` / `detect_channel`:
`rolling(W).apply(lambda x: 1 if x.iloc[-1]-x.iloc[0] > 0 else -1 if ... < 0 else 0)`,
NaN until the window fills. -/
def trendVal (xs : List ℚ) (W i : ℕ) : Option ℚ :=
  if 1 ≤ W ∧ W ≤ i + 1 ∧ i < xs.length then
    some (if xs.getD (i + 1 - W) 0 < xs.getD i 0 then 1
          else if xs.getD i 0 < xs.getD (i + 1 - W) 0 then -1 else 0)
  else none

/-- `df.index[mask].tolist()`: the ascending list of row positions whose mask is true. -/
def idxList (len : ℕ) (p : ℕ → Bool) : List ℕ := (List.range len).filter p

/-- `mask_head_shoulder` of `detect_head_shoulder`. -/
def mask_head_shoulder (S : List Bar) (W i : ℕ) : Bool :=
  oGT (rollMax (highs S) W i) (prev (highs S) i) &&
  oGT (rollMax (highs S) W i) (nxt (highs S) i) &&
  oLT (cur (highs S) i) (prev (highs S) i) &&
  oLT (cur (highs S) i) (nxt (highs S) i)

/-- `mask_inv_head_shoulder` of `detect_head_shoulder`. -/
def mask_inv_head_shoulder (S : List Bar) (W i : ℕ) : Bool :=
  oLT (rollMin (lows S) W i) (prev (lows S) i) &&
  oLT (rollMin (lows S) W i) (nxt (lows S) i) &&
  oGT (cur (lows S) i) (prev (lows S) i) &&
  oGT (cur (lows S) i) (nxt (lows S) i)

/-- Timestamps returned under the label `Head and Shoulder`. -/
def times_head_shoulder (S : List Bar) (W : ℕ) : List ℕ :=
  idxList S.length (mask_head_shoulder S W)

/-- Timestamps returned under the label `Inverse Head and Shoulder`. -/
def times_inv_head_shoulder (S : List Bar) (W : ℕ) : List ℕ :=
  idxList S.length (mask_inv_head_shoulder S W)

/-- `mask_top` of `detect_multiple_tops_bottoms`. -/
def mask_top (S : List Bar) (W i : ℕ) : Bool :=
  oGE (rollMax (highs S) W i) (prev (highs S) i) &&
  oLT (rollMax (closes S) W i) (prev (closes S) i)

/-- `mask_bottom` of `detect_multiple_tops_bottoms`. -/
def mask_bottom (S : List Bar) (W i : ℕ) : Bool :=
  oLE (rollMin (lows S) W i) (prev (lows S) i) &&
  oGT (rollMin (closes S) W i) (prev (closes S) i)

/-- Timestamps returned under the label `Multiple Top`. -/
def times_multiple_top (S : List Bar) (W : ℕ) : List ℕ :=
  idxList S.length (mask_top S W)

/-- Timestamps returned under the label `Multiple Bottom`. -/
def times_multiple_bottom (S : List Bar) (W : ℕ) : List ℕ :=
  idxList S.length (mask_bottom S W)

/-- `mask_asc` of `detect_triangle_pattern`. -/
def mask_asc (S : List Bar) (W i : ℕ) : Bool :=
  oGE (rollMax (highs S) W i) (prev (highs S) i) &&
  oLE (rollMin (lows S) W i) (prev (lows S) i) &&
  oGT (cur (closes S) i) (prev (closes S) i)

/-- `mask_desc` of `detect_triangle_pattern`. -/
def mask_desc (S : List Bar) (W i : ℕ) : Bool :=
  oLE (rollMax (highs S) W i) (prev (highs S) i) &&
  oGE (rollMin (lows S) W i) (prev (lows S) i) &&
  oLT (cur (closes S) i) (prev (closes S) i)

/-- Timestamps returned under the label `Ascending Triangle`. -/
def times_ascending_triangle (S : List Bar) (W : ℕ) : List ℕ :=
  idxList S.length (mask_asc S W)

/-- Timestamps returned under the label `Descending Triangle`. -/
def times_descending_triangle (S : List Bar) (W : ℕ) : List ℕ :=
  idxList S.length (mask_desc S W)

/-- `mask_wedge_up` of `detect_wedge`. -/
def mask_wedge_up (S : List Bar) (W i : ℕ) : Bool :=
  oGE (rollMax (highs S) W i) (prev (highs S) i) &&
  oLE (rollMin (lows S) W i) (prev (lows S) i) &&
  oEQ (trendVal (highs S) W i) (some 1) &&
  oEQ (trendVal (lows S) W i) (some 1)

/-- `mask_wedge_down` of `detect_wedge`. -/
def mask_wedge_down (S : List Bar) (W i : ℕ) : Bool :=
  oLE (rollMax (highs S) W i) (prev (highs S) i) &&
  oGE (rollMin (lows S) W i) (prev (lows S) i) &&
  oEQ (trendVal (highs S) W i) (some (-1)) &&
  oEQ (trendVal (lows S) W i) (some (-1))

/-- Timestamps returned under the label `Wedge Up`. -/
def times_wedge_up (S : List Bar) (W : ℕ) : List ℕ :=
  idxList S.length (mask_wedge_up S W)

/-- Timestamps returned under the label `Wedge Down`. -/
def times_wedge_down (S : List Bar) (W : ℕ) : List ℕ :=
  idxList S.length (mask_wedge_down S W)

/-- The channel tightness test of `detect_channel`:
`high_roll_max - low_roll_min <= 0.1 * (high_roll_max + low_roll_min)/2`,
False when either rolling value is NaN. -/
def channelBand (S : List Bar) (W i : ℕ) : Bool :=
  match rollMax (highs S) W i, rollMin (lows S) W i with
  | some a, some b => decide (a - b ≤ 1/10 * (a + b) / 2)
  | _, _ => false

/-- `mask_channel_up` of `detect_channel`. -/
def mask_channel_up (S : List Bar) (W i : ℕ) : Bool :=
  oGE (rollMax (highs S) W i) (prev (highs S) i) &&
  oLE (rollMin (lows S) W i) (prev (lows S) i) &&
  channelBand S W i &&
  oEQ (trendVal (highs S) W i) (some 1) &&
  oEQ (trendVal (lows S) W i) (some 1)

/-- `mask_channel_down` of `detect_channel`. -/
def mask_channel_down (S : List Bar) (W i : ℕ) : Bool :=
  oLE (rollMax (highs S) W i) (prev (highs S) i) &&
  oGE (rollMin (lows S) W i) (prev (lows S) i) &&
  channelBand S W i &&
  oEQ (trendVal (highs S) W i) (some (-1)) &&
  oEQ (trendVal (lows S) W i) (some (-1))

/-- Timestamps returned under the label `Channel Up`. -/
def times_channel_up (S : List Bar) (W : ℕ) : List ℕ :=
  idxList S.length (mask_channel_up S W)

/-- Timestamps returned under the label `Channel Down`. -/
def times_channel_down (S : List Bar) (W : ℕ) : List ℕ :=
  idxList S.length (mask_channel_down S W)

/-- The neighbor-bar tightness filter of `detect_double_top_bottom`
(with the default `threshold = 0.05 = 1/20`):
`(high - low) <= threshold * (high + low)/2` on a shifted bar; False on NaN. -/
def oTight : Option ℚ → Option ℚ → Bool
  | some h, some l => decide (h - l ≤ 1/20 * (h + l) / 2)
  | _, _ => false

/-- `mask_double_top` of `detect_double_top_bottom` (default threshold 1/20). -/
def mask_double_top (S : List Bar) (W i : ℕ) : Bool :=
  oGE (rollMax (highs S) W i) (prev (highs S) i) &&
  oGE (rollMax (highs S) W i) (nxt (highs S) i) &&
  oLT (cur (highs S) i) (prev (highs S) i) &&
  oLT (cur (highs S) i) (nxt (highs S) i) &&
  oTight (prev (highs S) i) (prev (lows S) i) &&
  oTight (nxt (highs S) i) (nxt (lows S) i)

/-- `mask_double_bottom` of `detect_double_top_bottom` (default threshold 1/20). -/
def mask_double_bottom (S : List Bar) (W i : ℕ) : Bool :=
  oLE (rollMin (lows S) W i) (prev (lows S) i) &&
  oLE (rollMin (lows S) W i) (nxt (lows S) i) &&
  oGT (cur (lows S) i) (prev (lows S) i) &&
  oGT (cur (lows S) i) (nxt (lows S) i) &&
  oTight (prev (highs S) i) (prev (lows S) i) &&
  oTight (nxt (highs S) i) (nxt (lows S) i)

/-- Timestamps returned under the label `Double Top`. -/
def times_double_top (S : List Bar) (W : ℕ) : List ℕ :=
  idxList S.length (mask_double_top S W)

/-- Timestamps returned under the label `Double Bottom`. -/
def times_double_bottom (S : List Bar) (W : ℕ) : List ℕ :=
  idxList S.length (mask_double_bottom S W)

/-- `higher_high_mask` of `find_pivots`:
`high.diff() > 0` and `high.diff().shift(-1) < 0`. -/
def mask_higher_high (S : List Bar) (i : ℕ) : Bool :=
  oGT (diffAt (highs S) i) (some 0) && oLT (diffAt (highs S) (i + 1)) (some 0)

/-- `lower_low_mask` of `find_pivots`. -/
def mask_lower_low (S : List Bar) (i : ℕ) : Bool :=
  oLT (diffAt (lows S) i) (some 0) && oGT (diffAt (lows S) (i + 1)) (some 0)

/-- `lower_high_mask` of `find_pivots`. -/
def mask_lower_high (S : List Bar) (i : ℕ) : Bool :=
  oLT (diffAt (highs S) i) (some 0) && oGT (diffAt (highs S) (i + 1)) (some 0)

/-- `higher_low_mask` of `find_pivots`. -/
def mask_higher_low (S : List Bar) (i : ℕ) : Bool :=
  oGT (diffAt (lows S) i) (some 0) && oLT (diffAt (lows S) (i + 1)) (some 0)

/-- Timestamps returned under the label `Higher High`. -/
def times_higher_high (S : List Bar) : List ℕ := idxList S.length (mask_higher_high S)

/-- Timestamps returned under the label `Lower Low`. -/
def times_lower_low (S : List Bar) : List ℕ := idxList S.length (mask_lower_low S)

/-- Timestamps returned under the label `Lower High`. -/
def times_lower_high (S : List Bar) : List ℕ := idxList S.length (mask_lower_high S)

/-- Timestamps returned under the label `Higher Low`. -/
def times_higher_low (S : List Bar) : List ℕ := idxList S.length (mask_higher_low S)

/-- One masked column assignment `df.loc[mask, col] = label`: rows where the
mask holds take the label, other rows keep their previous value. -/
def overwrite (col : ℕ → String) (m : ℕ → Bool) (lbl : String) : ℕ → String :=
  fun i => if m i then lbl else col i

/-- The per-bar `signal` column of `find_pivots`: starts empty, then the four
masked assignments run in source order HH, LL, LH, HL, each overwriting the
cells its mask selects. -/
def signalCol (S : List Bar) : ℕ → String :=
  overwrite
    (overwrite
      (overwrite
        (overwrite (fun _ => "") (mask_higher_high S) "HH")
        (mask_lower_low S) "LL")
      (mask_lower_high S) "LH")
    (mask_higher_low S) "HL"

/-- Sum of the regression x-values used by `detect_trendline` at start `a`:
`x = np.array(range(i-window, i))`, so the x-values are `a, a+1, ..., a+n-1`. -/
def sumX (a n : ℕ) : ℚ := ∑ j in Finset.range n, ((a : ℚ) + (j : ℚ))

/-- Sum of squares of the regression x-values. -/
def sumXX (a n : ℕ) : ℚ := ∑ j in Finset.range n, ((a : ℚ) + (j : ℚ)) ^ 2

/-- Sum of the `n` closes starting at row `a` (`y = df['Close'].iloc[i-window:i]`). -/
def sumY (cl : List ℚ) (a n : ℕ) : ℚ := ∑ j in Finset.range n, cl.getD (a + j) 0

/-- Sum of x*y over the regression window. -/
def sumXY (cl : List ℚ) (a n : ℕ) : ℚ :=
  ∑ j in Finset.range n, ((a : ℚ) + (j : ℚ)) * cl.getD (a + j) 0

/-- The slope `m` that `np.linalg.lstsq(A, y)` returns for the design
`A = [[x, 1], ...]` with x-values `a..a+n-1`: for `n ≥ 2` the x-values are
distinct, the design has full rank, and the least-squares solution is the
unique solution of the normal equations, i.e. the closed form below. -/
def slopeVal (cl : List ℚ) (a n : ℕ) : ℚ :=
  ((n : ℚ) * sumXY cl a n - sumX a n * sumY cl a n) /
    ((n : ℚ) * sumXX a n - sumX a n ^ 2)

/-- The intercept `c` of the same least-squares solution. -/
def interceptVal (cl : List ℚ) (a n : ℕ) : ℚ :=
  (sumY cl a n - slopeVal cl a n * sumX a n) / (n : ℚ)

/-- The `slope` column of `detect_trendline`: set inside
`for i in range(window, len(df))` from the fit over closes `i-window..i-1`
with x-values `i-window..i-1`, NaN elsewhere. The loop body is modelled for
`2 ≤ W` only: for `W ≤ 1` the design matrix is rank-deficient and
`np.linalg.lstsq` would return its minimum-norm solution instead of the
normal-equations solution (the function's own default is `window=2`, and the
aggregator in main.py always calls it with that default). -/
def slopeAt (cl : List ℚ) (W i : ℕ) : Option ℚ :=
  if 2 ≤ W ∧ W ≤ i ∧ i < cl.length then some (slopeVal cl (i - W) W) else none

/-- The `intercept` column of `detect_trendline` (same loop and caveat as `slopeAt`). -/
def interceptAt (cl : List ℚ) (W i : ℕ) : Option ℚ :=
  if 2 ≤ W ∧ W ≤ i ∧ i < cl.length then some (interceptVal cl (i - W) W) else none

/-- `mask_support` of `detect_trendline`: `df['slope'] > 0` (False on NaN). -/
def mask_support (cl : List ℚ) (W i : ℕ) : Bool :=
  match slopeAt cl W i with
  | some m => decide (0 < m)
  | none => false

/-- `mask_resistance` of `detect_trendline`: `df['slope'] < 0` (False on NaN). -/
def mask_resistance (cl : List ℚ) (W i : ℕ) : Bool :=
  match slopeAt cl W i with
  | some m => decide (m < 0)
  | none => false

/-- Timestamps returned under the label `Support Trendline`. -/
def times_support (cl : List ℚ) (W : ℕ) : List ℕ := idxList cl.length (mask_support cl W)

/-- Timestamps returned under the label `Resistance Trendline`. -/
def times_resistance (cl : List ℚ) (W : ℕ) : List ℕ := idxList cl.length (mask_resistance cl W)

/-- The `support` column as `detect_trendline` leaves it: reset to NaN, then
`df.loc[mask_support, 'support'] = df['Close']*df['slope'] + df['intercept']`. -/
def trendlineSupportCol (cl : List ℚ) (W : ℕ) : List (Option ℚ) :=
  (List.range cl.length).map fun i =>
    match slopeAt cl W i, interceptAt cl W i with
    | some m, some c => if 0 < m then some (cl.getD i 0 * m + c) else none
    | _, _ => none

/-- The `resistance` column as `detect_trendline` leaves it. -/
def trendlineResistanceCol (cl : List ℚ) (W : ℕ) : List (Option ℚ) :=
  (List.range cl.length).map fun i =>
    match slopeAt cl W i, interceptAt cl W i with
    | some m, some c => if m < 0 then some (cl.getD i 0 * m + c) else none
    | _, _ => none

/-- Modelled from the spec: sum of the x-values `0..W-1` that section 4.3
prescribes for the fit (`x-values are simple 0..W-1 integers`). -/
def spec_sumJ (n : ℕ) : ℚ := ∑ j in Finset.range n, (j : ℚ)

/-- Modelled from the spec: sum of squares of the x-values `0..W-1`. -/
def spec_sumJJ (n : ℕ) : ℚ := ∑ j in Finset.range n, (j : ℚ) ^ 2

/-- Modelled from the spec: sum of x*y with x-values `0..W-1` over the same
close window starting at row `a`. -/
def spec_sumJY (cl : List ℚ) (a n : ℕ) : ℚ :=
  ∑ j in Finset.range n, (j : ℚ) * cl.getD (a + j) 0

/-- Modelled from the spec: the ordinary least-squares slope of
`close = m*x + c` over the `W` closes starting at row `a`, with x-values
`0..W-1` as section 4.3 of the spec states. -/
def spec_slopeVal (cl : List ℚ) (a n : ℕ) : ℚ :=
  ((n : ℚ) * spec_sumJY cl a n - spec_sumJ n * sumY cl a n) /
    ((n : ℚ) * spec_sumJJ n - spec_sumJ n ^ 2)

/-- Modelled from the spec: the ordinary least-squares intercept with
x-values `0..W-1`. -/
def spec_interceptVal (cl : List ℚ) (a n : ℕ) : ℚ :=
  (sumY cl a n - spec_slopeVal cl a n * spec_sumJ n) / (n : ℚ)

/-- The mutable per-series DataFrame state threaded through `analyze_stock`:
the OHLC rows (never reassigned by any detector) and the `support` /
`resistance` columns, which two different functions write. -/
structure DfState where
  bars : List Bar
  support : List (Option ℚ)
  resistance : List (Option ℚ)

/-- `calculate_support_resistance`: writes `support = mean_low - 2*std_low`
and `resistance = mean_high + 2*std_high` over rolling window `W`. The
rolling sample standard deviations are square roots, irrational in general,
so they enter as abstract per-row parameters `stdH`, `stdL` (NaN until the
window fills); every claim about this function concerns only which cells are
written, never the written magnitudes. -/
def calculate_support_resistance (stdH stdL : ℕ → Option ℚ) (W : ℕ) (s : DfState) : DfState :=
  { s with
    support := (List.range s.bars.length).map fun i =>
      match rollMean (lows s.bars) W i, stdL i with
      | some m, some sd => some (m - 2 * sd)
      | _, _ => none,
    resistance := (List.range s.bars.length).map fun i =>
      match rollMean (highs s.bars) W i, stdH i with
      | some m, some sd => some (m + 2 * sd)
      | _, _ => none }

/-- `detect_trendline` as a state transformer: recomputes `slope` and
`intercept` from the closes, resets `support`/`resistance` to NaN and fills
them from the fitted line on the slope-sign masks. -/
def detect_trendline (W : ℕ) (s : DfState) : DfState :=
  { s with
    support := trendlineSupportCol (closes s.bars) W,
    resistance := trendlineResistanceCol (closes s.bars) W }

/-- A bar with the given high, low and close (open and volume are never read
by any detector). -/
def mkBar (h l c : ℚ) : Bar := ⟨0, h, l, c, 0⟩

/-- The ascending-triangle scenario series of the spec: highs
`[10,10,10,10,10]`, lows `[5,5,5,5,5]`, closes `[1,2,3,4,5]`. -/
def triSeries : List Bar :=
  [mkBar 10 5 1, mkBar 10 5 2, mkBar 10 5 3, mkBar 10 5 4, mkBar 10 5 5]

/-- A 3-bar series whose middle bar is simultaneously a higher-high and a
lower-low pivot: highs `[5,6,5]` (diff +1 then -1), lows `[3,1,3]`
(diff -2 then +2). -/
def pivotSeries : List Bar := [mkBar 5 3 0, mkBar 6 1 0, mkBar 5 3 0]

/-- A 4-bar series on which bar 2 fires both head-and-shoulders masks:
highs `[20,10,6,8]`, lows `[1,3,5,4]`. -/
def hsSeries : List Bar := [mkBar 20 1 0, mkBar 10 3 0, mkBar 6 5 0, mkBar 8 4 0]

/-- The double-top scenario series: two equal highs of 100 at bars 1 and 3
separated by a lower bar, both high bars tight (range 2 on a midpoint of 99). -/
def dtSeries : List Bar :=
  [mkBar 90 85 0, mkBar 100 98 0, mkBar 95 90 0, mkBar 100 98 0, mkBar 90 85 0]

/-- The close column `[0,1,2,3]` used to separate the code's regression
x-values from the spec's. -/
def cl6 : List ℚ := [0, 1, 2, 3]

/-- The collinear-flat close column `[10,10,10]` of the trendline tie scenario. -/
def flat3 : List ℚ := [10, 10, 10]

/-- A 2-bar series (shorter than the default window 3). -/
def shortSeries : List Bar := [mkBar 3 1 2, mkBar 4 2 3]

/-! Helper lemmas about the embedding's building blocks. -/

theorem length_highs (S : List Bar) : (highs S).length = S.length := by
  simp [highs]

theorem length_lows (S : List Bar) : (lows S).length = S.length := by
  simp [lows]

theorem length_closes (S : List Bar) : (closes S).length = S.length := by
  simp [closes]

theorem mem_idxList {len i : ℕ} {p : ℕ → Bool} : i ∈ idxList len p ↔ i < len ∧ p i = true := by
  simp [idxList, List.mem_filter, List.mem_range, and_comm]

theorem idxList_nil {len : ℕ} {p : ℕ → Bool} (h : ∀ i, p i = false) : idxList len p = [] := by
  unfold idxList
  refine List.filter_eq_nil_iff.mpr fun a _ => ?_
  simp [h a]

theorem oLT_eq_true {a b : Option ℚ} (h : oLT a b = true) :
    ∃ x y, a = some x ∧ b = some y ∧ x < y := by
  cases a <;> cases b <;> simp [oLT] at h <;> simp_all

theorem oLE_eq_true {a b : Option ℚ} (h : oLE a b = true) :
    ∃ x y, a = some x ∧ b = some y ∧ x ≤ y := by
  cases a <;> cases b <;> simp [oLE] at h <;> simp_all

theorem oGT_eq_true {a b : Option ℚ} (h : oGT a b = true) :
    ∃ x y, a = some x ∧ b = some y ∧ y < x := by
  cases a <;> cases b <;> simp [oGT] at h <;> simp_all

theorem oGE_eq_true {a b : Option ℚ} (h : oGE a b = true) :
    ∃ x y, a = some x ∧ b = some y ∧ y ≤ x := by
  cases a <;> cases b <;> simp [oGE] at h <;> simp_all

theorem oEQ_eq_true {a b : Option ℚ} (h : oEQ a b = true) :
    ∃ x y, a = some x ∧ b = some y ∧ x = y := by
  cases a <;> cases b <;> simp [oEQ] at h <;> simp_all

theorem oLT_none_left {b : Option ℚ} : oLT none b = false := by cases b <;> rfl

theorem oLE_none_left {b : Option ℚ} : oLE none b = false := by cases b <;> rfl

theorem oGT_none_left {b : Option ℚ} : oGT none b = false := by cases b <;> rfl

theorem oGE_none_left {b : Option ℚ} : oGE none b = false := by cases b <;> rfl

theorem le_foldl_max (l : List ℚ) (a : ℚ) : a ≤ l.foldl max a := by
  induction l generalizing a with
  | nil => simp
  | cons x xs ih =>
    calc a ≤ max a x := le_max_left a x
    _ ≤ xs.foldl max (max a x) := ih (max a x)
    _ = (x :: xs).foldl max a := by simp [List.foldl]

theorem foldl_max_ge_mem {l : List ℚ} {x : ℚ} (hx : x ∈ l) (a : ℚ) : x ≤ l.foldl max a := by
  induction l generalizing a with
  | nil => cases hx
  | cons y ys ih =>
    rcases List.mem_cons.mp hx with h | h
    · subst h
      calc x ≤ max a x := le_max_right a x
      _ ≤ ys.foldl max (max a x) := le_foldl_max ys (max a x)
      _ = (x :: ys).foldl max a := by simp [List.foldl]
    · calc x ≤ ys.foldl max (max a y) := ih h (max a y)
      _ = (y :: ys).foldl max a := by simp [List.foldl]

theorem foldl_min_le (l : List ℚ) (a : ℚ) : l.foldl min a ≤ a := by
  induction l generalizing a with
  | nil => simp
  | cons x xs ih =>
    calc (x :: xs).foldl min a = xs.foldl min (min a x) := by simp [List.foldl]
    _ ≤ min a x := ih (min a x)
    _ ≤ a := min_le_left a x

theorem foldl_min_le_mem {l : List ℚ} {x : ℚ} (hx : x ∈ l) (a : ℚ) : l.foldl min a ≤ x := by
  induction l generalizing a with
  | nil => cases hx
  | cons y ys ih =>
    rcases List.mem_cons.mp hx with h | h
    · subst h
      calc (x :: ys).foldl min a = ys.foldl min (min a x) := by simp [List.foldl]
      _ ≤ min a x := foldl_min_le ys (min a x)
      _ ≤ x := min_le_right a x
    · calc (y :: ys).foldl min a = ys.foldl min (min a y) := by simp [List.foldl]
      _ ≤ x := ih h (min a y)

theorem listMax_ge {l : List ℚ} {m x : ℚ} (hm : listMax l = some m) (hx : x ∈ l) : x ≤ m := by
  cases l with
  | nil => cases hx
  | cons y ys =>
    have hm2 : ys.foldl max y = m := by simpa [listMax] using hm
    rcases List.mem_cons.mp hx with h | h
    · subst h; rw [← hm2]; exact le_foldl_max ys x
    · rw [← hm2]; exact foldl_max_ge_mem h y

theorem listMin_le {l : List ℚ} {m x : ℚ} (hm : listMin l = some m) (hx : x ∈ l) : m ≤ x := by
  cases l with
  | nil => cases hx
  | cons y ys =>
    have hm2 : ys.foldl min y = m := by simpa [listMin] using hm
    rcases List.mem_cons.mp hx with h | h
    · subst h; rw [← hm2]; exact foldl_min_le ys x
    · rw [← hm2]; exact foldl_min_le_mem h y

theorem listMax_exists {l : List ℚ} (h : l ≠ []) : ∃ m, listMax l = some m := by
  cases l with
  | nil => exact absurd rfl h
  | cons y ys => exact ⟨ys.foldl max y, rfl⟩

theorem listMin_exists {l : List ℚ} (h : l ≠ []) : ∃ m, listMin l = some m := by
  cases l with
  | nil => exact absurd rfl h
  | cons y ys => exact ⟨ys.foldl min y, rfl⟩

theorem listMin_le_listMax {l : List ℚ} {m M : ℚ} (h1 : listMin l = some m)
    (h2 : listMax l = some M) : m ≤ M := by
  cases l with
  | nil => cases h1
  | cons y ys =>
    calc m ≤ y := listMin_le h1 (List.mem_cons_self y ys)
    _ ≤ M := listMax_ge h2 (List.mem_cons_self y ys)

theorem mem_winList {xs : List ℚ} {W i k : ℕ} {v : ℚ} (h1 : i + 1 - W ≤ k) (h2 : k ≤ i)
    (h3 : xs[k]? = some v) : v ∈ winList xs W i := by
  have hk : k < i + 1 := Nat.lt_succ_of_le h2
  have ht : (xs.take (i + 1))[k]? = some v := by
    rw [List.getElem?_take, if_pos hk]; exact h3
  have harith : (i + 1 - W) + (k - (i + 1 - W)) = k := by omega
  have hd : (winList xs W i)[k - (i + 1 - W)]? = some v := by
    unfold winList
    rw [List.getElem?_drop, harith]; exact ht
  exact List.getElem?_mem hd

theorem rollMax_eq_some {xs : List ℚ} {W i : ℕ} {m : ℚ} (h : rollMax xs W i = some m) :
    1 ≤ W ∧ W ≤ i + 1 ∧ i < xs.length ∧ listMax (winList xs W i) = some m := by
  unfold rollMax at h
  by_cases hc : 1 ≤ W ∧ W ≤ i + 1 ∧ i < xs.length
  · rw [if_pos hc] at h; exact ⟨hc.1, hc.2.1, hc.2.2, h⟩
  · rw [if_neg hc] at h; cases h

theorem rollMin_eq_some {xs : List ℚ} {W i : ℕ} {m : ℚ} (h : rollMin xs W i = some m) :
    1 ≤ W ∧ W ≤ i + 1 ∧ i < xs.length ∧ listMin (winList xs W i) = some m := by
  unfold rollMin at h
  by_cases hc : 1 ≤ W ∧ W ≤ i + 1 ∧ i < xs.length
  · rw [if_pos hc] at h; exact ⟨hc.1, hc.2.1, hc.2.2, h⟩
  · rw [if_neg hc] at h; cases h

theorem rollMax_none_of_short {xs : List ℚ} {W i : ℕ} (h : xs.length < W) :
    rollMax xs W i = none := by
  unfold rollMax
  rw [if_neg]
  rintro ⟨-, h2, h3⟩
  omega

theorem rollMin_none_of_short {xs : List ℚ} {W i : ℕ} (h : xs.length < W) :
    rollMin xs W i = none := by
  unfold rollMin
  rw [if_neg]
  rintro ⟨-, h2, h3⟩
  omega

theorem prev_eq_some {xs : List ℚ} {i : ℕ} {v : ℚ} (h : prev xs i = some v) :
    1 ≤ i ∧ xs[i - 1]? = some v := by
  unfold prev at h
  by_cases hc : 1 ≤ i
  · rw [if_pos hc] at h; exact ⟨hc, h⟩
  · rw [if_neg hc] at h; cases h

theorem nxt_eq_some {xs : List ℚ} {i : ℕ} {v : ℚ} (h : nxt xs i = some v) :
    i + 1 < xs.length := by
  unfold nxt at h
  exact (List.getElem?_eq_some.mp h).1

theorem cur_eq_some {xs : List ℚ} {i : ℕ} {v : ℚ} (h : cur xs i = some v) :
    i < xs.length := by
  unfold cur at h
  exact (List.getElem?_eq_some.mp h).1

theorem diffAt_eq_some {xs : List ℚ} {k : ℕ} {v : ℚ} (h : diffAt xs k = some v) :
    1 ≤ k ∧ k < xs.length := by
  unfold diffAt at h
  cases hcur : cur xs k with
  | none => rw [hcur] at h; cases h
  | some a =>
    cases hprev : prev xs k with
    | none => rw [hcur, hprev] at h; cases h
    | some b => exact ⟨(prev_eq_some hprev).1, cur_eq_some hcur⟩

theorem slopeAt_eq_some {cl : List ℚ} {W i : ℕ} {m : ℚ} (h : slopeAt cl W i = some m) :
    2 ≤ W ∧ W ≤ i ∧ i < cl.length ∧ m = slopeVal cl (i - W) W := by
  unfold slopeAt at h
  by_cases hc : 2 ≤ W ∧ W ≤ i ∧ i < cl.length
  · rw [if_pos hc] at h
    exact ⟨hc.1, hc.2.1, hc.2.2, (Option.some_inj.mp h).symm⟩
  · rw [if_neg hc] at h; cases h

theorem slopeAt_none_of_short {cl : List ℚ} {W i : ℕ} (h : cl.length < W) :
    slopeAt cl W i = none := by
  unfold slopeAt
  rw [if_neg]
  rintro ⟨-, h2, h3⟩
  omega

theorem mask_head_shoulder_bounds {S : List Bar} {W i : ℕ}
    (h : mask_head_shoulder S W i = true) : 1 ≤ i ∧ i + 1 < S.length := by
  simp only [mask_head_shoulder, Bool.and_eq_true] at h
  obtain ⟨⟨⟨hA, hB⟩, -⟩, -⟩ := h
  obtain ⟨x, y, -, hy, -⟩ := oGT_eq_true hA
  obtain ⟨x2, y2, -, hy2, -⟩ := oGT_eq_true hB
  have b2 := nxt_eq_some hy2
  rw [length_highs] at b2
  exact ⟨(prev_eq_some hy).1, b2⟩

theorem mask_inv_head_shoulder_bounds {S : List Bar} {W i : ℕ}
    (h : mask_inv_head_shoulder S W i = true) : 1 ≤ i ∧ i + 1 < S.length := by
  simp only [mask_inv_head_shoulder, Bool.and_eq_true] at h
  obtain ⟨⟨⟨hA, hB⟩, -⟩, -⟩ := h
  obtain ⟨x, y, -, hy, -⟩ := oLT_eq_true hA
  obtain ⟨x2, y2, -, hy2, -⟩ := oLT_eq_true hB
  have b2 := nxt_eq_some hy2
  rw [length_lows] at b2
  exact ⟨(prev_eq_some hy).1, b2⟩

theorem mask_double_top_bounds {S : List Bar} {W i : ℕ}
    (h : mask_double_top S W i = true) : 1 ≤ i ∧ i + 1 < S.length := by
  simp only [mask_double_top, Bool.and_eq_true] at h
  obtain ⟨⟨⟨⟨⟨hA, hB⟩, -⟩, -⟩, -⟩, -⟩ := h
  obtain ⟨x, y, -, hy, -⟩ := oGE_eq_true hA
  obtain ⟨x2, y2, -, hy2, -⟩ := oGE_eq_true hB
  have b2 := nxt_eq_some hy2
  rw [length_highs] at b2
  exact ⟨(prev_eq_some hy).1, b2⟩

theorem mask_double_bottom_bounds {S : List Bar} {W i : ℕ}
    (h : mask_double_bottom S W i = true) : 1 ≤ i ∧ i + 1 < S.length := by
  simp only [mask_double_bottom, Bool.and_eq_true] at h
  obtain ⟨⟨⟨⟨⟨hA, hB⟩, -⟩, -⟩, -⟩, -⟩ := h
  obtain ⟨x, y, -, hy, -⟩ := oLE_eq_true hA
  obtain ⟨x2, y2, -, hy2, -⟩ := oLE_eq_true hB
  have b2 := nxt_eq_some hy2
  rw [length_lows] at b2
  exact ⟨(prev_eq_some hy).1, b2⟩

theorem mask_higher_high_bounds {S : List Bar} {i : ℕ}
    (h : mask_higher_high S i = true) : 1 ≤ i ∧ i + 1 < S.length := by
  simp only [mask_higher_high, Bool.and_eq_true] at h
  obtain ⟨hA, hB⟩ := h
  obtain ⟨x, y, hx, -, -⟩ := oGT_eq_true hA
  obtain ⟨x2, y2, hx2, -, -⟩ := oLT_eq_true hB
  have b2 := (diffAt_eq_some hx2).2
  rw [length_highs] at b2
  exact ⟨(diffAt_eq_some hx).1, b2⟩

theorem mask_lower_low_bounds {S : List Bar} {i : ℕ}
    (h : mask_lower_low S i = true) : 1 ≤ i ∧ i + 1 < S.length := by
  simp only [mask_lower_low, Bool.and_eq_true] at h
  obtain ⟨hA, hB⟩ := h
  obtain ⟨x, y, hx, -, -⟩ := oLT_eq_true hA
  obtain ⟨x2, y2, hx2, -, -⟩ := oGT_eq_true hB
  have b2 := (diffAt_eq_some hx2).2
  rw [length_lows] at b2
  exact ⟨(diffAt_eq_some hx).1, b2⟩

theorem mask_lower_high_bounds {S : List Bar} {i : ℕ}
    (h : mask_lower_high S i = true) : 1 ≤ i ∧ i + 1 < S.length := by
  simp only [mask_lower_high, Bool.and_eq_true] at h
  obtain ⟨hA, hB⟩ := h
  obtain ⟨x, y, hx, -, -⟩ := oLT_eq_true hA
  obtain ⟨x2, y2, hx2, -, -⟩ := oGT_eq_true hB
  have b2 := (diffAt_eq_some hx2).2
  rw [length_highs] at b2
  exact ⟨(diffAt_eq_some hx).1, b2⟩

theorem mask_higher_low_bounds {S : List Bar} {i : ℕ}
    (h : mask_higher_low S i = true) : 1 ≤ i ∧ i + 1 < S.length := by
  simp only [mask_higher_low, Bool.and_eq_true] at h
  obtain ⟨hA, hB⟩ := h
  obtain ⟨x, y, hx, -, -⟩ := oGT_eq_true hA
  obtain ⟨x2, y2, hx2, -, -⟩ := oLT_eq_true hB
  have b2 := (diffAt_eq_some hx2).2
  rw [length_lows] at b2
  exact ⟨(diffAt_eq_some hx).1, b2⟩

theorem mask_head_shoulder_short {S : List Bar} {W i : ℕ} (h : S.length < W) :
    mask_head_shoulder S W i = false := by
  have hh : (highs S).length < W := by rw [length_highs]; exact h
  simp [mask_head_shoulder, rollMax_none_of_short hh, oGT_none_left]

theorem mask_inv_head_shoulder_short {S : List Bar} {W i : ℕ} (h : S.length < W) :
    mask_inv_head_shoulder S W i = false := by
  have hh : (lows S).length < W := by rw [length_lows]; exact h
  simp [mask_inv_head_shoulder, rollMin_none_of_short hh, oLT_none_left]

theorem mask_top_short {S : List Bar} {W i : ℕ} (h : S.length < W) :
    mask_top S W i = false := by
  have hh : (highs S).length < W := by rw [length_highs]; exact h
  simp [mask_top, rollMax_none_of_short hh, oGE_none_left]

theorem mask_bottom_short {S : List Bar} {W i : ℕ} (h : S.length < W) :
    mask_bottom S W i = false := by
  have hh : (lows S).length < W := by rw [length_lows]; exact h
  simp [mask_bottom, rollMin_none_of_short hh, oLE_none_left]

theorem mask_asc_short {S : List Bar} {W i : ℕ} (h : S.length < W) :
    mask_asc S W i = false := by
  have hh : (highs S).length < W := by rw [length_highs]; exact h
  simp [mask_asc, rollMax_none_of_short hh, oGE_none_left]

theorem mask_desc_short {S : List Bar} {W i : ℕ} (h : S.length < W) :
    mask_desc S W i = false := by
  have hh : (highs S).length < W := by rw [length_highs]; exact h
  simp [mask_desc, rollMax_none_of_short hh, oLE_none_left]

theorem mask_wedge_up_short {S : List Bar} {W i : ℕ} (h : S.length < W) :
    mask_wedge_up S W i = false := by
  have hh : (highs S).length < W := by rw [length_highs]; exact h
  simp [mask_wedge_up, rollMax_none_of_short hh, oGE_none_left]

theorem mask_wedge_down_short {S : List Bar} {W i : ℕ} (h : S.length < W) :
    mask_wedge_down S W i = false := by
  have hh : (highs S).length < W := by rw [length_highs]; exact h
  simp [mask_wedge_down, rollMax_none_of_short hh, oLE_none_left]

theorem mask_channel_up_short {S : List Bar} {W i : ℕ} (h : S.length < W) :
    mask_channel_up S W i = false := by
  have hh : (highs S).length < W := by rw [length_highs]; exact h
  simp [mask_channel_up, rollMax_none_of_short hh, oGE_none_left]

theorem mask_channel_down_short {S : List Bar} {W i : ℕ} (h : S.length < W) :
    mask_channel_down S W i = false := by
  have hh : (highs S).length < W := by rw [length_highs]; exact h
  simp [mask_channel_down, rollMax_none_of_short hh, oLE_none_left]

theorem mask_double_top_short {S : List Bar} {W i : ℕ} (h : S.length < W) :
    mask_double_top S W i = false := by
  have hh : (highs S).length < W := by rw [length_highs]; exact h
  simp [mask_double_top, rollMax_none_of_short hh, oGE_none_left]

theorem mask_double_bottom_short {S : List Bar} {W i : ℕ} (h : S.length < W) :
    mask_double_bottom S W i = false := by
  have hh : (lows S).length < W := by rw [length_lows]; exact h
  simp [mask_double_bottom, rollMin_none_of_short hh, oLE_none_left]

theorem mask_support_short {cl : List ℚ} {W i : ℕ} (h : cl.length < W) :
    mask_support cl W i = false := by
  simp [mask_support, slopeAt_none_of_short h]

theorem mask_resistance_short {cl : List ℚ} {W i : ℕ} (h : cl.length < W) :
    mask_resistance cl W i = false := by
  simp [mask_resistance, slopeAt_none_of_short h]

theorem mask_higher_high_short {S : List Bar} {i : ℕ} (h : S.length < 3) :
    mask_higher_high S i = false := by
  cases hm : mask_higher_high S i with
  | false => rfl
  | true => have := mask_higher_high_bounds hm; omega

theorem mask_lower_low_short {S : List Bar} {i : ℕ} (h : S.length < 3) :
    mask_lower_low S i = false := by
  cases hm : mask_lower_low S i with
  | false => rfl
  | true => have := mask_lower_low_bounds hm; omega

theorem mask_lower_high_short {S : List Bar} {i : ℕ} (h : S.length < 3) :
    mask_lower_high S i = false := by
  cases hm : mask_lower_high S i with
  | false => rfl
  | true => have := mask_lower_high_bounds hm; omega

theorem mask_higher_low_short {S : List Bar} {i : ℕ} (h : S.length < 3) :
    mask_higher_low S i = false := by
  cases hm : mask_higher_low S i with
  | false => rfl
  | true => have := mask_higher_low_bounds hm; omega

theorem mask_top_false {S : List Bar} {W i : ℕ} (hW : 2 ≤ W) : mask_top S W i = false := by
  unfold mask_top
  cases hlt : oLT (rollMax (closes S) W i) (prev (closes S) i) with
  | true =>
    exfalso
    obtain ⟨x, y, hx, hy, hxy⟩ := oLT_eq_true hlt
    obtain ⟨h1W, hWi, hilen, hmax⟩ := rollMax_eq_some hx
    obtain ⟨hi1, hget⟩ := prev_eq_some hy
    have hmem : y ∈ winList (closes S) W i := mem_winList (by omega) (by omega) hget
    exact absurd hxy (not_lt.mpr (listMax_ge hmax hmem))
  | false => simp [hlt]

theorem mask_bottom_false {S : List Bar} {W i : ℕ} (hW : 2 ≤ W) : mask_bottom S W i = false := by
  unfold mask_bottom
  cases hgt : oGT (rollMin (closes S) W i) (prev (closes S) i) with
  | true =>
    exfalso
    obtain ⟨x, y, hx, hy, hxy⟩ := oGT_eq_true hgt
    obtain ⟨h1W, hWi, hilen, hmin⟩ := rollMin_eq_some hx
    obtain ⟨hi1, hget⟩ := prev_eq_some hy
    have hmem : y ∈ winList (closes S) W i := mem_winList (by omega) (by omega) hget
    exact absurd hxy (not_lt.mpr (listMin_le hmin hmem))
  | false => simp [hgt]

theorem mask_support_eq_true {cl : List ℚ} {W i : ℕ} (h : mask_support cl W i = true) :
    ∃ m, slopeAt cl W i = some m ∧ 0 < m := by
  unfold mask_support at h
  cases hs : slopeAt cl W i with
  | none => rw [hs] at h; cases h
  | some m => rw [hs] at h; exact ⟨m, rfl, of_decide_eq_true h⟩

theorem mask_resistance_eq_true {cl : List ℚ} {W i : ℕ} (h : mask_resistance cl W i = true) :
    ∃ m, slopeAt cl W i = some m ∧ m < 0 := by
  unfold mask_resistance at h
  cases hs : slopeAt cl W i with
  | none => rw [hs] at h; cases h
  | some m => rw [hs] at h; exact ⟨m, rfl, of_decide_eq_true h⟩

theorem mask_support_intro {cl : List ℚ} {W i : ℕ} {m : ℚ} (hs : slopeAt cl W i = some m)
    (hm : 0 < m) : mask_support cl W i = true := by
  unfold mask_support
  rw [hs]
  exact decide_eq_true hm

theorem mask_resistance_intro {cl : List ℚ} {W i : ℕ} {m : ℚ} (hs : slopeAt cl W i = some m)
    (hm : m < 0) : mask_resistance cl W i = true := by
  unfold mask_resistance
  rw [hs]
  exact decide_eq_true hm

theorem sumX_eq (a n : ℕ) : sumX a n = n * a + spec_sumJ n := by
  unfold sumX spec_sumJ
  rw [Finset.sum_add_distrib, Finset.sum_const, Finset.card_range, nsmul_eq_mul]

theorem sumXX_eq (a n : ℕ) :
    sumXX a n = n * (a : ℚ) ^ 2 + 2 * a * spec_sumJ n + spec_sumJJ n := by
  unfold sumXX spec_sumJ spec_sumJJ
  have h : ∀ j : ℕ, ((a : ℚ) + (j : ℚ)) ^ 2 = (a : ℚ) ^ 2 + 2 * a * (j : ℚ) + (j : ℚ) ^ 2 :=
    fun j => by ring
  simp_rw [h]
  rw [Finset.sum_add_distrib, Finset.sum_add_distrib, Finset.sum_const, Finset.card_range,
    nsmul_eq_mul, ← Finset.mul_sum]

theorem sumXY_eq (cl : List ℚ) (a n : ℕ) :
    sumXY cl a n = a * sumY cl a n + spec_sumJY cl a n := by
  unfold sumXY sumY spec_sumJY
  simp_rw [add_mul]
  rw [Finset.sum_add_distrib, ← Finset.mul_sum]

theorem slopeVal_eq_spec (cl : List ℚ) (a n : ℕ) : slopeVal cl a n = spec_slopeVal cl a n := by
  unfold slopeVal spec_slopeVal
  rw [sumX_eq, sumXX_eq, sumXY_eq]
  congr 1 <;> ring

theorem interceptVal_eq_spec (cl : List ℚ) (a n : ℕ) (hn : n ≠ 0) :
    interceptVal cl a n = spec_interceptVal cl a n - spec_slopeVal cl a n * (a : ℚ) := by
  unfold interceptVal spec_interceptVal
  rw [slopeVal_eq_spec, sumX_eq]
  have hq : (n : ℚ) ≠ 0 := Nat.cast_ne_zero.mpr hn
  field_simp
  ring

/-! Claim theorems. -/

/-- C3 (amended): on the spec's ascending-triangle scenario (highs
`[10,10,10,10,10]`, lows `[5,5,5,5,5]`, closes `[1,2,3,4,5]`, window 3),
`detect_triangle_pattern` records `Ascending Triangle` at indices 2, 3 and 4
and at no other index: the rolling statistics are already defined at index 2
(= window-1), so the first firing bar is index 2, not index 3. -/
theorem C3_triangle_scenario : times_ascending_triangle triSeries 3 = [2, 3, 4] := by decide

/-- C3 counterexample: contrary to the claim, index 2 carries
`Ascending Triangle` in the scenario series, so the recorded index set is not
`{3, 4}`. -/
theorem C3_counterexample :
    (2 : ℕ) ∈ times_ascending_triangle triSeries 3 ∧
    times_ascending_triangle triSeries 3 ≠ [3, 4] := by decide

/-- C2: for every bar series and every window `W ≥ 2`,
`detect_multiple_tops_bottoms` returns empty timestamp lists for both
`Multiple Top` and `Multiple Bottom`: the rolling close-max over the window
ending at `i` already contains `Close[i-1]`, so `close_roll_max[i] <
Close[i-1]` can never hold, and symmetrically for the close-min. -/
theorem C2_multiple_tops_bottoms_empty (S : List Bar) (W : ℕ) (hW : 2 ≤ W) :
    times_multiple_top S W = [] ∧ times_multiple_bottom S W = [] :=
  ⟨idxList_nil fun _ => mask_top_false hW, idxList_nil fun _ => mask_bottom_false hW⟩

/-- C2 witness: the detector is empty on the concrete scenario series at the
default window 3. -/
theorem C2_witness :
    times_multiple_top triSeries 3 = [] ∧ times_multiple_bottom triSeries 3 = [] :=
  C2_multiple_tops_bottoms_empty triSeries 3 (by decide)

/-- C10: running `detect_trendline` after `calculate_support_resistance`
unconditionally overwrites the `support` and `resistance` columns: the
resulting columns are exactly the trendline-fit columns computed from the
closes (fitted value where the slope is positive resp. negative, not
available otherwise), they coincide with what `detect_trendline` would
produce without the preceding band computation, and the OHLC rows pass
through unchanged — so in the aggregation pipeline of `analyze_stock` the
mean-low minus 2-std / mean-high plus 2-std band never survives to the
annotated output. -/
theorem C10_trendline_overwrites (s : DfState) (stdH stdL : ℕ → Option ℚ) (Wsr Wtl : ℕ) :
    (detect_trendline Wtl (calculate_support_resistance stdH stdL Wsr s)).support =
      trendlineSupportCol (closes s.bars) Wtl ∧
    (detect_trendline Wtl (calculate_support_resistance stdH stdL Wsr s)).resistance =
      trendlineResistanceCol (closes s.bars) Wtl ∧
    (detect_trendline Wtl (calculate_support_resistance stdH stdL Wsr s)).support =
      (detect_trendline Wtl s).support ∧
    (detect_trendline Wtl (calculate_support_resistance stdH stdL Wsr s)).resistance =
      (detect_trendline Wtl s).resistance ∧
    (calculate_support_resistance stdH stdL Wsr s).bars = s.bars :=
  ⟨rfl, rfl, rfl, rfl, rfl⟩

/-- C8: on a series strictly shorter than the requested window every
windowed detector emits no events (all returned timestamp lists are empty),
and `find_pivots` — which takes no window and needs two consecutive
differences — emits no events on any series shorter than 3 bars (the default
window used at every call site). The embedding is pure, so the OHLC values
are unchanged by construction. -/
theorem C8_insufficient_data (S : List Bar) (W : ℕ) (h : S.length < W) :
    times_head_shoulder S W = [] ∧ times_inv_head_shoulder S W = [] ∧
    times_multiple_top S W = [] ∧ times_multiple_bottom S W = [] ∧
    times_ascending_triangle S W = [] ∧ times_descending_triangle S W = [] ∧
    times_wedge_up S W = [] ∧ times_wedge_down S W = [] ∧
    times_channel_up S W = [] ∧ times_channel_down S W = [] ∧
    times_double_top S W = [] ∧ times_double_bottom S W = [] ∧
    times_support (closes S) W = [] ∧ times_resistance (closes S) W = [] ∧
    (S.length < 3 → times_higher_high S = [] ∧ times_lower_low S = [] ∧
      times_lower_high S = [] ∧ times_higher_low S = []) := by
  have hcl : (closes S).length < W := by rw [length_closes]; exact h
  refine ⟨idxList_nil fun _ => mask_head_shoulder_short h,
    idxList_nil fun _ => mask_inv_head_shoulder_short h,
    idxList_nil fun _ => mask_top_short h,
    idxList_nil fun _ => mask_bottom_short h,
    idxList_nil fun _ => mask_asc_short h,
    idxList_nil fun _ => mask_desc_short h,
    idxList_nil fun _ => mask_wedge_up_short h,
    idxList_nil fun _ => mask_wedge_down_short h,
    idxList_nil fun _ => mask_channel_up_short h,
    idxList_nil fun _ => mask_channel_down_short h,
    idxList_nil fun _ => mask_double_top_short h,
    idxList_nil fun _ => mask_double_bottom_short h,
    idxList_nil fun _ => mask_support_short hcl,
    idxList_nil fun _ => mask_resistance_short hcl,
    fun h3 => ⟨idxList_nil fun _ => mask_higher_high_short h3,
      idxList_nil fun _ => mask_lower_low_short h3,
      idxList_nil fun _ => mask_lower_high_short h3,
      idxList_nil fun _ => mask_higher_low_short h3⟩⟩

/-- C8 witness: the 2-bar series with the default window 3 produces no events
anywhere. -/
theorem C8_witness :
    times_head_shoulder shortSeries 3 = [] ∧ times_inv_head_shoulder shortSeries 3 = [] ∧
    times_multiple_top shortSeries 3 = [] ∧ times_multiple_bottom shortSeries 3 = [] ∧
    times_ascending_triangle shortSeries 3 = [] ∧ times_descending_triangle shortSeries 3 = [] ∧
    times_wedge_up shortSeries 3 = [] ∧ times_wedge_down shortSeries 3 = [] ∧
    times_channel_up shortSeries 3 = [] ∧ times_channel_down shortSeries 3 = [] ∧
    times_double_top shortSeries 3 = [] ∧ times_double_bottom shortSeries 3 = [] ∧
    times_support (closes shortSeries) 3 = [] ∧ times_resistance (closes shortSeries) 3 = [] ∧
    (shortSeries.length < 3 → times_higher_high shortSeries = [] ∧
      times_lower_low shortSeries = [] ∧ times_lower_high shortSeries = [] ∧
      times_higher_low shortSeries = []) :=
  C8_insufficient_data shortSeries 3 (by decide)

/-- C9: no detector that compares a bar against both neighbors (head and
shoulders, double top/bottom, the four pivot rules) ever fires at index 0 or
at the last index: the shifted neighbor value is not available there, so the
comparison is false and the boundary bars never enter those timestamp
lists. -/
theorem C9_boundary_exclusion (S : List Bar) (W : ℕ) :
    ((0 : ℕ) ∉ times_head_shoulder S W ∧ S.length - 1 ∉ times_head_shoulder S W) ∧
    ((0 : ℕ) ∉ times_inv_head_shoulder S W ∧ S.length - 1 ∉ times_inv_head_shoulder S W) ∧
    ((0 : ℕ) ∉ times_double_top S W ∧ S.length - 1 ∉ times_double_top S W) ∧
    ((0 : ℕ) ∉ times_double_bottom S W ∧ S.length - 1 ∉ times_double_bottom S W) ∧
    ((0 : ℕ) ∉ times_higher_high S ∧ S.length - 1 ∉ times_higher_high S) ∧
    ((0 : ℕ) ∉ times_lower_low S ∧ S.length - 1 ∉ times_lower_low S) ∧
    ((0 : ℕ) ∉ times_lower_high S ∧ S.length - 1 ∉ times_lower_high S) ∧
    ((0 : ℕ) ∉ times_higher_low S ∧ S.length - 1 ∉ times_higher_low S) := by
  have H1 : ∀ i, i ∈ times_head_shoulder S W → 1 ≤ i ∧ i + 1 < S.length :=
    fun i hi => mask_head_shoulder_bounds (mem_idxList.mp hi).2
  have H2 : ∀ i, i ∈ times_inv_head_shoulder S W → 1 ≤ i ∧ i + 1 < S.length :=
    fun i hi => mask_inv_head_shoulder_bounds (mem_idxList.mp hi).2
  have H3 : ∀ i, i ∈ times_double_top S W → 1 ≤ i ∧ i + 1 < S.length :=
    fun i hi => mask_double_top_bounds (mem_idxList.mp hi).2
  have H4 : ∀ i, i ∈ times_double_bottom S W → 1 ≤ i ∧ i + 1 < S.length :=
    fun i hi => mask_double_bottom_bounds (mem_idxList.mp hi).2
  have H5 : ∀ i, i ∈ times_higher_high S → 1 ≤ i ∧ i + 1 < S.length :=
    fun i hi => mask_higher_high_bounds (mem_idxList.mp hi).2
  have H6 : ∀ i, i ∈ times_lower_low S → 1 ≤ i ∧ i + 1 < S.length :=
    fun i hi => mask_lower_low_bounds (mem_idxList.mp hi).2
  have H7 : ∀ i, i ∈ times_lower_high S → 1 ≤ i ∧ i + 1 < S.length :=
    fun i hi => mask_lower_high_bounds (mem_idxList.mp hi).2
  have H8 : ∀ i, i ∈ times_higher_low S → 1 ≤ i ∧ i + 1 < S.length :=
    fun i hi => mask_higher_low_bounds (mem_idxList.mp hi).2
  exact ⟨⟨fun h => by have := H1 0 h; omega, fun h => by have := H1 (S.length - 1) h; omega⟩,
    ⟨fun h => by have := H2 0 h; omega, fun h => by have := H2 (S.length - 1) h; omega⟩,
    ⟨fun h => by have := H3 0 h; omega, fun h => by have := H3 (S.length - 1) h; omega⟩,
    ⟨fun h => by have := H4 0 h; omega, fun h => by have := H4 (S.length - 1) h; omega⟩,
    ⟨fun h => by have := H5 0 h; omega, fun h => by have := H5 (S.length - 1) h; omega⟩,
    ⟨fun h => by have := H6 0 h; omega, fun h => by have := H6 (S.length - 1) h; omega⟩,
    ⟨fun h => by have := H7 0 h; omega, fun h => by have := H7 (S.length - 1) h; omega⟩,
    ⟨fun h => by have := H8 0 h; omega, fun h => by have := H8 (S.length - 1) h; omega⟩⟩

/-- C1 (amended): the per-bar `signal` column of `find_pivots` holds the
LAST matching label in the sequential write order HH, LL, LH, HL (each later
masked assignment overwrites the earlier ones, so the effective priority is
HL over LH over LL over HH — not first-match in the order HH, LL, LH, HL);
the returned mapping lists a bar's timestamp under EVERY pivot rule it
satisfies, possibly more than one. Rules on the same price column (HH vs LH
on highs, LL vs HL on lows) are mutually exclusive, but a high-rule and a
low-rule can fire together on one bar. -/
theorem C1_pivot_priority (S : List Bar) (i : ℕ) :
    signalCol S i = (if mask_higher_low S i then "HL" else if mask_lower_high S i then "LH"
      else if mask_lower_low S i then "LL" else if mask_higher_high S i then "HH" else "") ∧
    (i ∈ times_higher_high S ↔ mask_higher_high S i = true) ∧
    (i ∈ times_lower_low S ↔ mask_lower_low S i = true) ∧
    (i ∈ times_lower_high S ↔ mask_lower_high S i = true) ∧
    (i ∈ times_higher_low S ↔ mask_higher_low S i = true) ∧
    ¬(mask_higher_high S i = true ∧ mask_lower_high S i = true) ∧
    ¬(mask_lower_low S i = true ∧ mask_higher_low S i = true) := by
  refine ⟨rfl, ?_, ?_, ?_, ?_, ?_, ?_⟩
  · exact ⟨fun h => (mem_idxList.mp h).2,
      fun hm => mem_idxList.mpr ⟨by have := mask_higher_high_bounds hm; omega, hm⟩⟩
  · exact ⟨fun h => (mem_idxList.mp h).2,
      fun hm => mem_idxList.mpr ⟨by have := mask_lower_low_bounds hm; omega, hm⟩⟩
  · exact ⟨fun h => (mem_idxList.mp h).2,
      fun hm => mem_idxList.mpr ⟨by have := mask_lower_high_bounds hm; omega, hm⟩⟩
  · exact ⟨fun h => (mem_idxList.mp h).2,
      fun hm => mem_idxList.mpr ⟨by have := mask_higher_low_bounds hm; omega, hm⟩⟩
  · rintro ⟨h1, h2⟩
    simp only [mask_higher_high, Bool.and_eq_true] at h1
    simp only [mask_lower_high, Bool.and_eq_true] at h2
    obtain ⟨x, y, hx, hy, hxy⟩ := oGT_eq_true h1.1
    obtain ⟨x2, y2, hx2, hy2, hxy2⟩ := oLT_eq_true h2.1
    rw [hx] at hx2
    have hxx : x = x2 := Option.some_inj.mp hx2
    have hy0 : (0 : ℚ) = y := Option.some_inj.mp hy
    have hy02 : (0 : ℚ) = y2 := Option.some_inj.mp hy2
    linarith
  · rintro ⟨h1, h2⟩
    simp only [mask_lower_low, Bool.and_eq_true] at h1
    simp only [mask_higher_low, Bool.and_eq_true] at h2
    obtain ⟨x, y, hx, hy, hxy⟩ := oLT_eq_true h1.1
    obtain ⟨x2, y2, hx2, hy2, hxy2⟩ := oGT_eq_true h2.1
    rw [hx] at hx2
    have hxx : x = x2 := Option.some_inj.mp hx2
    have hy0 : (0 : ℚ) = y := Option.some_inj.mp hy
    have hy02 : (0 : ℚ) = y2 := Option.some_inj.mp hy2
    linarith

/-- C1 counterexample: on the series with highs `[5,6,5]` and lows `[3,1,3]`
bar 1 satisfies both the HH rule (high-diffs +1, -1) and the LL rule
(low-diffs -2, +2); the annotation holds `LL` (the later write), not the
first-priority `HH`, and the timestamp appears under BOTH `Higher High` and
`Lower Low` in the returned mapping — not under exactly one label. -/
theorem C1_counterexample :
    signalCol pivotSeries 1 = "LL" ∧ signalCol pivotSeries 1 ≠ "HH" ∧
    (1 : ℕ) ∈ times_higher_high pivotSeries ∧ (1 : ℕ) ∈ times_lower_low pivotSeries := by
  have h1 : signalCol pivotSeries 1 = "LL" := by
    norm_num [signalCol, overwrite, mask_higher_high, mask_lower_low, mask_lower_high,
      mask_higher_low, diffAt, cur, prev, highs, lows, pivotSeries, mkBar, oGT, oLT]
  have h2 : times_higher_high pivotSeries = [1] := by
    have hr : List.range pivotSeries.length = [0, 1, 2] := by rfl
    rw [times_higher_high, idxList, hr]
    norm_num [List.filter, mask_higher_high, diffAt, cur, prev, highs, pivotSeries, mkBar,
      oGT, oLT]
  have h3 : times_lower_low pivotSeries = [1] := by
    have hr : List.range pivotSeries.length = [0, 1, 2] := by rfl
    rw [times_lower_low, idxList, hr]
    norm_num [List.filter, mask_lower_low, diffAt, cur, prev, lows, pivotSeries, mkBar,
      oGT, oLT]
  refine ⟨h1, by rw [h1]; decide, by rw [h2]; decide, by rw [h3]; decide⟩

/-- C4 (amended): within the triangle, wedge, channel, multiple-top/bottom
and trendline families no bar ever appears under both the Up and the Down
label of the returned mapping (their predicates contain contradictory
comparisons); the per-bar annotation column of every family holds at most
one label because the Down write overwrites the Up write. The head-and-
shoulders, double-top/bottom and pivot families do NOT satisfy mapping-level
exclusivity (see the counterexample). -/
theorem C4_family_exclusive (S : List Bar) (cl : List ℚ) (W i : ℕ) :
    ¬(i ∈ times_ascending_triangle S W ∧ i ∈ times_descending_triangle S W) ∧
    ¬(i ∈ times_wedge_up S W ∧ i ∈ times_wedge_down S W) ∧
    ¬(i ∈ times_channel_up S W ∧ i ∈ times_channel_down S W) ∧
    ¬(i ∈ times_multiple_top S W ∧ i ∈ times_multiple_bottom S W) ∧
    ¬(i ∈ times_support cl W ∧ i ∈ times_resistance cl W) := by
  refine ⟨?_, ?_, ?_, ?_, ?_⟩
  · rintro ⟨hA, hB⟩
    have mA := (mem_idxList.mp hA).2
    have mB := (mem_idxList.mp hB).2
    simp only [mask_asc, Bool.and_eq_true] at mA
    simp only [mask_desc, Bool.and_eq_true] at mB
    obtain ⟨x, y, hx, hy, hxy⟩ := oGT_eq_true mA.2
    obtain ⟨x2, y2, hx2, hy2, hxy2⟩ := oLT_eq_true mB.2
    rw [hx] at hx2
    rw [hy] at hy2
    have hxx : x = x2 := Option.some_inj.mp hx2
    have hyy : y = y2 := Option.some_inj.mp hy2
    linarith
  · rintro ⟨hA, hB⟩
    have mA := (mem_idxList.mp hA).2
    have mB := (mem_idxList.mp hB).2
    simp only [mask_wedge_up, Bool.and_eq_true] at mA
    simp only [mask_wedge_down, Bool.and_eq_true] at mB
    obtain ⟨x, y, hx, hy, hxy⟩ := oEQ_eq_true mA.1.2
    obtain ⟨x2, y2, hx2, hy2, hxy2⟩ := oEQ_eq_true mB.1.2
    rw [hx] at hx2
    have hxx : x = x2 := Option.some_inj.mp hx2
    have e1 : x = 1 := by rw [hxy]; exact (Option.some_inj.mp hy).symm
    have e2 : x2 = -1 := by rw [hxy2]; exact (Option.some_inj.mp hy2).symm
    linarith
  · rintro ⟨hA, hB⟩
    have mA := (mem_idxList.mp hA).2
    have mB := (mem_idxList.mp hB).2
    simp only [mask_channel_up, Bool.and_eq_true] at mA
    simp only [mask_channel_down, Bool.and_eq_true] at mB
    obtain ⟨x, y, hx, hy, hxy⟩ := oEQ_eq_true mA.1.2
    obtain ⟨x2, y2, hx2, hy2, hxy2⟩ := oEQ_eq_true mB.1.2
    rw [hx] at hx2
    have hxx : x = x2 := Option.some_inj.mp hx2
    have e1 : x = 1 := by rw [hxy]; exact (Option.some_inj.mp hy).symm
    have e2 : x2 = -1 := by rw [hxy2]; exact (Option.some_inj.mp hy2).symm
    linarith
  · rintro ⟨hA, hB⟩
    have mA := (mem_idxList.mp hA).2
    have mB := (mem_idxList.mp hB).2
    simp only [mask_top, Bool.and_eq_true] at mA
    simp only [mask_bottom, Bool.and_eq_true] at mB
    obtain ⟨x, y, hx, hy, hxy⟩ := oLT_eq_true mA.2
    obtain ⟨x2, y2, hx2, hy2, hxy2⟩ := oGT_eq_true mB.2
    rw [hy] at hy2
    have hyy : y = y2 := Option.some_inj.mp hy2
    have hM := (rollMax_eq_some hx).2.2.2
    have hm := (rollMin_eq_some hx2).2.2.2
    have hmM : x2 ≤ x := listMin_le_listMax hm hM
    linarith
  · rintro ⟨hA, hB⟩
    obtain ⟨m, hsm, hm⟩ := mask_support_eq_true (mem_idxList.mp hA).2
    obtain ⟨m2, hsm2, hm2⟩ := mask_resistance_eq_true (mem_idxList.mp hB).2
    rw [hsm] at hsm2
    have : m = m2 := Option.some_inj.mp hsm2
    linarith

/-- C4 counterexample: on the series with highs `[20,10,6,8]` and lows
`[1,3,5,4]` (window 3), bar 2 appears under BOTH `Head and Shoulder` and
`Inverse Head and Shoulder` in the returned mapping, so mutual exclusivity
within a family fails for the mapping. -/
theorem C4_counterexample :
    (2 : ℕ) ∈ times_head_shoulder hsSeries 3 ∧
    (2 : ℕ) ∈ times_inv_head_shoulder hsSeries 3 := by
  constructor <;> decide

/-- C7: `detect_trendline` records a bar under `Support Trendline` exactly
when its stored slope is strictly positive and under `Resistance Trendline`
exactly when it is strictly negative; on the collinear-flat closes
`[10,10,10]` with window 2 the slope at index 2 is exactly 0 and the bar is
recorded under neither label (and the embedding is total, so no error is
possible). -/
theorem C7_trendline_classification (cl : List ℚ) (W i : ℕ) :
    (i ∈ times_support cl W ↔ ∃ m, slopeAt cl W i = some m ∧ 0 < m) ∧
    (i ∈ times_resistance cl W ↔ ∃ m, slopeAt cl W i = some m ∧ m < 0) ∧
    slopeAt flat3 2 2 = some 0 ∧
    (2 : ℕ) ∉ times_support flat3 2 ∧ (2 : ℕ) ∉ times_resistance flat3 2 := by
  have hflat : slopeAt flat3 2 2 = some 0 := by
    norm_num [slopeAt, flat3, slopeVal, sumX, sumXX, sumXY, sumY, Finset.sum_range_succ]
  refine ⟨?_, ?_, hflat, ?_, ?_⟩
  · constructor
    · exact fun h => mask_support_eq_true (mem_idxList.mp h).2
    · rintro ⟨m, hs, hm⟩
      exact mem_idxList.mpr ⟨(slopeAt_eq_some hs).2.2.1, mask_support_intro hs hm⟩
  · constructor
    · exact fun h => mask_resistance_eq_true (mem_idxList.mp h).2
    · rintro ⟨m, hs, hm⟩
      exact mem_idxList.mpr ⟨(slopeAt_eq_some hs).2.2.1, mask_resistance_intro hs hm⟩
  · intro h
    obtain ⟨m, hs, hm⟩ := mask_support_eq_true (mem_idxList.mp h).2
    rw [hflat] at hs
    have : (0 : ℚ) = m := Option.some_inj.mp hs
    linarith
  · intro h
    obtain ⟨m, hs, hm⟩ := mask_resistance_eq_true (mem_idxList.mp h).2
    rw [hflat] at hs
    have : (0 : ℚ) = m := Option.some_inj.mp hs
    linarith

/-- C6 (amended): for `2 ≤ W ≤ i < len`, `detect_trendline` stores as
`slope[i]` and `intercept[i]` the ordinary least-squares coefficients over
the `W` closes at rows `i-W..i-1` with x-values `i-W..i-1` (not `0..W-1` as
the claim states): the slope coincides with the `0..W-1` fit's slope, but
the intercept equals the `0..W-1` fit's intercept minus `slope * (i-W)`. -/
theorem C6_trendline_regression (cl : List ℚ) (W i : ℕ) (hW : 2 ≤ W) (hWi : W ≤ i)
    (hil : i < cl.length) :
    slopeAt cl W i = some (spec_slopeVal cl (i - W) W) ∧
    interceptAt cl W i =
      some (spec_interceptVal cl (i - W) W -
        spec_slopeVal cl (i - W) W * ((i - W : ℕ) : ℚ)) := by
  have hc : 2 ≤ W ∧ W ≤ i ∧ i < cl.length := ⟨hW, hWi, hil⟩
  constructor
  · unfold slopeAt
    rw [if_pos hc, slopeVal_eq_spec]
  · unfold interceptAt
    rw [if_pos hc, interceptVal_eq_spec cl (i - W) W (by omega)]

/-- C6 witness: the relationship instantiated on closes `[0,1,2,3]`,
window 2, index 3. -/
theorem C6_witness :
    slopeAt cl6 2 3 = some (spec_slopeVal cl6 (3 - 2) 2) ∧
    interceptAt cl6 2 3 =
      some (spec_interceptVal cl6 (3 - 2) 2 -
        spec_slopeVal cl6 (3 - 2) 2 * ((3 - 2 : ℕ) : ℚ)) :=
  C6_trendline_regression cl6 2 3 (by decide) (by decide) (by decide)

/-- C6 counterexample: on closes `[0,1,2,3]` with window 2 the code stores
`intercept[3] = 0` (fit over x-values 1, 2), while the ordinary
least-squares fit over the same closes with x-values `0..W-1` has intercept
1 — so the stored intercept is not the claimed `0..W-1` coefficient. -/
theorem C6_counterexample :
    interceptAt cl6 2 3 = some 0 ∧ spec_interceptVal cl6 1 2 = 1 ∧
    interceptAt cl6 2 3 ≠ some (spec_interceptVal cl6 1 2) := by
  have h1 : interceptAt cl6 2 3 = some 0 := by
    norm_num [interceptAt, cl6, interceptVal, slopeVal, sumX, sumXX, sumXY, sumY,
      Finset.sum_range_succ]
  have h2 : spec_interceptVal cl6 1 2 = 1 := by
    norm_num [spec_interceptVal, spec_slopeVal, spec_sumJ, spec_sumJJ, spec_sumJY, sumY, cl6,
      Finset.sum_range_succ]
  exact ⟨h1, h2, by rw [h1, h2]; decide⟩

/-- C5 (amended): in a double-top configuration — two bars of equal high `H`
at `i-1` and `i+1` around a lower bar `i`, both outer bars tight (range at
most 5 percent of their midpoint) — `detect_double_top_bottom` with window 3
fires at the MIDDLE bar `i` (for `2 ≤ i`, so the rolling max is defined),
not at the first of the two high bars: the neighbor-comparison convention
flags the separating bar between the two highs. -/
theorem C5_double_top_middle (S : List Bar) (i : ℕ) (h1 hm h2 l1 l2 : ℚ)
    (hi : 2 ≤ i)
    (e1 : (highs S)[i - 1]? = some h1) (e0 : (highs S)[i]? = some hm)
    (e2 : (highs S)[i + 1]? = some h2)
    (f1 : (lows S)[i - 1]? = some l1) (f2 : (lows S)[i + 1]? = some l2)
    (heq : h2 = h1) (hlt : hm < h1)
    (t1 : oTight (some h1) (some l1) = true) (t2 : oTight (some h2) (some l2) = true) :
    i ∈ times_double_top S 3 := by
  have hilen : i < (highs S).length := (List.getElem?_eq_some.mp e0).1
  have hSlen : i < S.length := by rw [← length_highs]; exact hilen
  have hp : prev (highs S) i = some h1 := by
    unfold prev
    rw [if_pos (by omega : 1 ≤ i)]
    exact e1
  have hnx : nxt (highs S) i = some h2 := e2
  have hc : cur (highs S) i = some hm := e0
  have hpl : prev (lows S) i = some l1 := by
    unfold prev
    rw [if_pos (by omega : 1 ≤ i)]
    exact f1
  have hnl : nxt (lows S) i = some l2 := f2
  have hmem1 : h1 ∈ winList (highs S) 3 i := mem_winList (by omega) (by omega) e1
  obtain ⟨M, hM⟩ := listMax_exists (List.ne_nil_of_mem hmem1)
  have hroll : rollMax (highs S) 3 i = some M := by
    unfold rollMax
    rw [if_pos ⟨by norm_num, by omega, hilen⟩]
    exact hM
  have h1M : h1 ≤ M := listMax_ge hM hmem1
  have h2M : h2 ≤ M := by rw [heq]; exact h1M
  have hmask : mask_double_top S 3 i = true := by
    unfold mask_double_top
    rw [hroll, hp, hnx, hc, hpl, hnl]
    simp only [oGE, oLT, Bool.and_eq_true, decide_eq_true_eq]
    exact ⟨⟨⟨⟨⟨h1M, h2M⟩, hlt⟩, by rw [heq]; exact hlt⟩, t1⟩, t2⟩
  exact mem_idxList.mpr ⟨hSlen, hmask⟩

/-- C5 witness: on the concrete scenario series (highs `[90,100,95,100,90]`,
lows `[85,98,90,98,85]`), the middle bar 2 is flagged `Double Top`. -/
theorem C5_witness : (2 : ℕ) ∈ times_double_top dtSeries 3 :=
  C5_double_top_middle dtSeries 2 100 95 100 98 98 (by decide) (by rfl) (by rfl)
    (by rfl) (by rfl) (by rfl) rfl (by decide) (by norm_num [oTight]) (by norm_num [oTight])

/-- C5 counterexample: on the concrete double-top scenario the returned
`Double Top` list is `[2]` — the middle bar — and not `[1]`, the first of
the two high bars as the claim states. -/
theorem C5_counterexample :
    times_double_top dtSeries 3 = [2] ∧ times_double_top dtSeries 3 ≠ [1] := by
  have h : times_double_top dtSeries 3 = [2] := by
    have hr : List.range dtSeries.length = [0, 1, 2, 3, 4] := by rfl
    rw [times_double_top, idxList, hr]
    norm_num [List.filter, mask_double_top, rollMax, winList, listMax, cur, prev, nxt,
      oTight, oGE, oLT, highs, lows, dtSeries, mkBar, List.take, List.drop, List.foldl]
  exact ⟨h, by rw [h]; decide⟩

end TradingPatterns
